import Mathlib

/-!
# portiaui `browser-iframe` component

A shallow embedding of `portiaui/app/components/browser-iframe.js`: the URL
hash used as a storage key, the load guard with its failure store, the load
watchdog, the cookie key, the single-instance counter with its command
registry, and the promise chain that applies DOM mutations.

JavaScript values are modelled as follows.

* Strings are Lean strings (sequences of code points, as iterated by
  `for (let c of string)`).
* A property that can be `undefined`/`null` is an `Option`; truthiness of a
  string-valued property is `truthy`.
* Numbers that hold integers are `Int`/`Nat`; the 32-bit conversion done by the
  shift operator is written out with `%`.
* Dates are integer milliseconds.
* A method that can throw returns a `Result`: the state reached and the error
  thrown, if any.
-/

namespace BrowserIFrame

/-! ## JavaScript primitives -/

/-- Truthiness of a value that is a string, `null` or `undefined`. -/
def truthy : Option String → Bool
  | none => false
  | some s => s != ""

/-- The result of `c.charCodeAt(0)` for one iterated character `c`: the code
point itself in the basic plane, the leading surrogate otherwise. -/
def charCodeAt0 (c : Char) : Nat :=
  if c.toNat < 0x10000 then c.toNat else 0xD800 + (c.toNat - 0x10000) / 0x400

/-- The conversion `ToInt32` on an integral number. -/
def toInt32 (x : Int) : Int :=
  let m := x % 4294967296
  if m < 2147483648 then m else m - 4294967296

/-- The operator `x << k` for `k < 32`: both the operand and the result are
signed 32-bit integers. -/
def shiftLeft (x : Int) (k : Nat) : Int := toInt32 (toInt32 x * 2 ^ k)

/-- The result of `x.toString(16)` on an integral number. -/
def numberToString16 (x : Int) : String :=
  if x < 0 then "-" ++ String.mk (Nat.toDigits 16 x.natAbs)
  else String.mk (Nat.toDigits 16 x.toNat)

/-- The test `s.includes(t)`. -/
def includes (s t : String) : Bool :=
  s.data.tails.any fun r => t.data.isPrefixOf r

/-- The result of `s.replace(/\./g, '_')`. -/
def replaceDots (s : String) : String :=
  String.mk (s.data.map fun c => if c = '.' then '_' else c)

/-! ## hashString -/

/-- One iteration of the loop of `hashString`:
`hash = ((hash << 5) + hash) + c.charCodeAt(0)`. Only the shifted term is
converted to 32 bits; the two additions are additions of numbers. -/
def hashStep (hash : Int) (c : Char) : Int :=
  (shiftLeft hash 5 + hash) + (charCodeAt0 c : Int)

/-- The value of `hash` when the loop of `hashString` ends. -/
def hashLoop (s : String) : Int := s.data.foldl hashStep 5381

/-- The function `hashString`. -/
def hashString (s : String) : String :=
  let hash := hashLoop s
  let hash := if hash < 0 then hash + (0xFFFFFFFF + 1) else hash
  numberToString16 hash

/-- The 32-bit djb2 hash as the specification words it: `h0 = 5381` and
`h(i+1) = (33 * h(i) + code(i)) mod 2^32`. -/
def djb2Spec (s : String) : Nat :=
  s.data.foldl (fun h c => (33 * h + charCodeAt0 c) % 2 ^ 32) 5381

/-! ## Data model -/

/-- A record of the `page-loads` store, as written by `failedLoad`. The date
string `dt` is held as the milliseconds it denotes. -/
structure FailureRecord where
  failed : Nat
  reason : List String
  dt : Int
  url : String
deriving DecidableEq, Repr

/-- What `this.get` returns for a key of the `page-loads` store: nothing was
ever stored, `null` was stored, or a record. -/
inductive StoreValue where
  | undefined
  | null
  | record (r : FailureRecord)
deriving DecidableEq, Repr

/-- One cookie entry of a `cookies` message. -/
structure Cookie where
  name : String
  value : String
deriving DecidableEq, Repr

/-- The value returned by `loadCookies`: the stored array, or the object `{}`. -/
inductive CookieJar where
  | emptyObject
  | entries (cs : List Cookie)
deriving DecidableEq, Repr

/-- A message handed to `webSocket.send`. -/
inductive Command where
  | load (viewport : Option String) (userAgent : String) (cookies : CookieJar)
      (project spider : Option String) (url : String) (baseurl : Option String)
  | interact (spider project : Option String)
deriving DecidableEq, Repr

/-- An entry of the command registry of the webSocket service. -/
structure Handler where
  command : String
  target : Nat
  method : String
deriving DecidableEq, Repr

/-- A pending `Ember.run.later` timer. The only callback this component
schedules is `failedLoad` without arguments. -/
structure Timer where
  handle : Nat
  due : Int
deriving DecidableEq, Repr

/-- The payload of a `loadStarted` message. -/
structure LoadStartedData where
  id : Option String
  url : Option String
deriving DecidableEq, Repr

/-- The payload of a `loadFinished`, `metadata` or `load` message. -/
structure Metadata where
  loaded : Bool
  url : Option String
  error : Bool
deriving DecidableEq, Repr

/-- The errors the component throws. `urlBlocked` and `urlFailing` are the two
errors of `_loadUrl`, `onlyOneInstance` the error of `willInsertElement`, and
`notIterable` the `TypeError` of `hashString` on a missing string. -/
inductive Thrown where
  | urlBlocked (url : String)
  | urlFailing (url : String)
  | onlyOneInstance
  | notIterable
deriving DecidableEq, Repr

/-- The state the component reads and writes: its own fields, the services it
is injected with, the class counter `BrowserIFrame.instances`, and the
environment (clock, `navigator`, run-loop timers, size of the element). -/
structure State where
  /- browser service -/
  url : Option String
  baseurl : Option String
  loading : Bool
  disabled : Bool
  document : Option Nat
  urlInvalidations : Nat
  /- uiState service -/
  spider : Option String
  project : Option String
  /- component fields -/
  splashUrl : Option String
  lastLoadData : Option LoadStartedData
  lastLoadPromise : Option Nat
  /- storage -/
  pageLoadStore : String → StoreValue
  cookiesStore : String → Option (List Cookie)
  /- webSocket service -/
  closed : Bool
  reconnectComponent : Option String
  sent : List Command
  commands : List Handler
  /- extractedItems service -/
  extractionFailures : List String
  /- class property -/
  instances : Int
  /- environment -/
  now : Int
  onLine : Bool
  userAgent : String
  innerWidth : Nat
  innerHeight : Nat
  timers : List Timer
  nextTimer : Nat

/-- The outcome of a method that may throw. -/
structure Result where
  state : State
  thrown : Option Thrown

/-- The state of a component that was just created, for the given current
url: nothing stored, nothing sent, transport open, client online, clock 0. -/
def initialState (url : Option String) : State where
  url := url
  baseurl := none
  loading := false
  disabled := false
  document := none
  urlInvalidations := 0
  spider := none
  project := none
  splashUrl := none
  lastLoadData := none
  lastLoadPromise := none
  pageLoadStore := fun _ => StoreValue.undefined
  cookiesStore := fun _ => none
  closed := false
  reconnectComponent := none
  sent := []
  commands := []
  extractionFailures := []
  instances := 0
  now := 0
  onLine := true
  userAgent := ""
  innerWidth := 0
  innerHeight := 0
  timers := []
  nextTimer := 0

/-! ## Run loop and transport -/

/-- The call `Ember.run.later(this, this.failedLoad, wait)`: a timer due `wait`
milliseconds from now; its handle is returned. -/
def later (wait : Int) (s : State) : Nat × State :=
  (s.nextTimer,
    { s with timers := s.timers ++ [⟨s.nextTimer, s.now + wait⟩], nextTimer := s.nextTimer + 1 })

/-- The call `Ember.run.cancel(timer)`: the timer is dropped if it is still
pending; a missing or spent handle changes nothing. -/
def cancel (timer : Option Nat) (s : State) : State :=
  match timer with
  | none => s
  | some h => { s with timers := s.timers.filter fun t => t.handle != h }

/-- The call `webSocket.send(command)`. -/
def send (c : Command) (s : State) : State :=
  { s with sent := s.sent ++ [c] }

/-- Assignment `this.set('pageLoadStore.' + key, v)`. -/
def setPageLoad (key : String) (v : StoreValue) (s : State) : State :=
  { s with pageLoadStore := fun k => if k = key then v else s.pageLoadStore k }

/-- Assignment `this.set('cookiesStore.' + key, cookies)`. -/
def setCookies (key : String) (cs : List Cookie) (s : State) : State :=
  { s with cookiesStore := fun k => if k = key then some cs else s.cookiesStore k }

/-! ## Cookies -/

/-- The computed property `cookieId`. -/
def cookieId (s : State) : Option String :=
  if truthy s.project && truthy s.spider then
    some (replaceDots ("cookies:" ++ s.project.getD "" ++ "/" ++ s.spider.getD ""))
  else none

/-- The method `loadCookies`. -/
def loadCookies (s : State) : CookieJar :=
  if truthy (cookieId s) then
    match s.cookiesStore ((cookieId s).getD "") with
    | some cookies => CookieJar.entries cookies
    | none => CookieJar.emptyObject
  else CookieJar.emptyObject

/-- The handler `msgCookies`. A missing `cookieId` is rendered by the template
string as the key `undefined`. -/
def msgCookies (cookies : Option (List Cookie)) (s : State) : State :=
  match cookies with
  | some (c :: cs) => setCookies ((cookieId s).getD "undefined") (c :: cs) s
  | _ => s

/-! ## Load lifecycle -/

/-- The test `(now - new Date(dt)) / (1000 * 3600) < 1` on millisecond dates. -/
def withinHour (now dt : Int) : Bool := decide (now - dt < 1000 * 3600)

/-- The expression `reason || 'slow'`. -/
def reasonOrSlow (reason : Option String) : String :=
  if truthy reason then reason.getD "" else "slow"

/-- The method `failedLoad`. -/
def failedLoad (reason : Option String) (s : State) : State :=
  if !truthy s.url then s
  else
    let url := s.url.getD ""
    let hash := hashString url
    let now := s.now
    let data : Nat × List String :=
      match s.pageLoadStore hash with
      | StoreValue.record data =>
        if withinHour now data.dt then (data.failed + 1, data.reason) else (0, [])
      | _ => (0, [])
    setPageLoad hash
      (StoreValue.record ⟨data.1, data.2 ++ [reasonOrSlow reason], now, url⟩) s

/-- The method `iframeSize`. -/
def iframeSize (s : State) : Option String :=
  some (toString s.innerWidth ++ "x" ++ toString (max s.innerHeight 10))

/-- The method `visit`. -/
def visit (url : String) (baseurl : Option String) (s : State) : State :=
  let s := { s with loading := true }
  send (Command.load (iframeSize s) s.userAgent (loadCookies s) s.project s.spider url baseurl) s

/-- The method `_loadUrl`. The helper `cleanUrl` of `utils/utils` is a
parameter; only the truthiness of its result is used. -/
def _loadUrl (cleanUrl : String → Option String) (s : State) : Result :=
  let url := s.url.getD ""
  let baseurl := s.baseurl
  if !truthy s.url || !includes url "://" || !truthy (cleanUrl url) then ⟨s, none⟩
  else if s.closed then
    let s := { s with splashUrl := none }
    if s.lastLoadPromise.isSome then
      let s := { s with lastLoadData := none }
      let s := cancel s.lastLoadPromise s
      ⟨failedLoad (some (if s.onLine then "server_disconnect" else "user_disconnect")) s, none⟩
    else ⟨s, none⟩
  else if s.splashUrl = some url then ⟨s, none⟩
  else
    let proceed : Result := ⟨visit url baseurl { s with reconnectComponent := none }, none⟩
    match s.pageLoadStore (hashString url) with
    | StoreValue.record failures =>
      if withinHour s.now failures.dt then
        let failed := failures.failed
        if failed > 3 && s.onLine then
          ⟨{ s with reconnectComponent := some "browser-url-blocked", loading := false },
            some (Thrown.urlBlocked url)⟩
        else if failed > 2 then
          if !truthy s.reconnectComponent then
            ⟨{ s with reconnectComponent := some "browser-url-failing", loading := false },
              some (Thrown.urlFailing url)⟩
          else proceed
        else proceed
      else proceed
    | _ => proceed

/-- The handler `msgLoadStarted`. -/
def msgLoadStarted (data : LoadStartedData) (s : State) : State :=
  let s := { s with loading := true }
  if truthy data.id then
    let s := { s with lastLoadData := some ⟨data.id, data.url⟩ }
    let (timer, s) := later 60000 s
    { s with lastLoadPromise := some timer }
  else s

/-- The method `handleMetadataError`. -/
def handleMetadataError (s : State) : State :=
  let s := { s with loading := false }
  let s := { s with splashUrl := none }
  let s := { s with extractionFailures := s.extractionFailures ++ ["Failed Loading Page"] }
  let s := { s with urlInvalidations := s.urlInvalidations + 1 }
  send (Command.interact s.spider s.project) s

/-- The handler `msgMetadata`. -/
def msgMetadata (data : Metadata) (s : State) : State :=
  let s := if data.loaded then { s with loading := false } else s
  let s := if truthy data.url then { s with splashUrl := data.url, url := data.url } else s
  if data.error then handleMetadataError s else s

/-- The handler `msgLoad`. -/
def msgLoad (data : Metadata) (s : State) : State := msgMetadata data s

/-- The handler `msgLoadFinished`. With no current url `hashString` is called
on a missing value and throws before the metadata is processed. -/
def msgLoadFinished (data : Metadata) (s : State) : Result :=
  let s := cancel s.lastLoadPromise s
  let s := { s with lastLoadData := none }
  match s.url with
  | none => ⟨s, some Thrown.notIterable⟩
  | some url =>
    let hash := hashString url
    let s :=
      match s.pageLoadStore hash with
      | StoreValue.record _ => setPageLoad hash StoreValue.null s
      | _ => s
    ⟨msgMetadata data s, none⟩

/-- One failure event: the clock reads `e.1` and `failedLoad(e.2)` runs. -/
def failAt (s : State) (e : Int × Option String) : State :=
  failedLoad e.2 { s with now := e.1 }

/-- A run of consecutive failures. -/
def failAll (s : State) (es : List (Int × Option String)) : State :=
  es.foldl failAt s

/-! ## Observers, timers and inbound events -/

/-- The observer `loadUrl` on `url`, `baseurl` and `webSocket.closed`: when one
of them changed between `before` and `after`, `_loadUrl` is scheduled once and
runs on `after`. An error it throws leaves the state it reached. -/
def loadUrl (cleanUrl : String → Option String) (before after : State) : State :=
  if after.url = before.url ∧ after.baseurl = before.baseurl ∧ after.closed = before.closed
  then after
  else (_loadUrl cleanUrl after).state

/-- The run loop fires the timers of `ts` that are due at time `t` and still
pending: the clock reaches the due time and `failedLoad()` runs. -/
def fireTimers (t : Int) : List Timer → State → State
  | [], s => s
  | tm :: rest, s =>
    if tm.due ≤ t ∧ tm ∈ s.timers then
      fireTimers t rest
        (failedLoad none { s with now := max s.now tm.due, timers := s.timers.erase tm })
    else fireTimers t rest s

/-- The clock advances by `ms` milliseconds; the timers that fall due fire on
the way, earliest first. -/
def elapse (ms : Nat) (s : State) : State :=
  let t := s.now + ms
  { fireTimers t s.timers s with now := t }

/-- What can happen to an attached component: an inbound message, time passing,
the transport opening or closing, the current url being set from outside. -/
inductive Event where
  | loadStarted (data : LoadStartedData)
  | loadFinished (data : Metadata)
  | metadata (data : Metadata)
  | load (data : Metadata)
  | cookies (cookies : Option (List Cookie))
  | elapse (ms : Nat)
  | connection (closed : Bool)
  | navigate (url : Option String)
deriving DecidableEq, Repr

/-- The reaction of the component to one event, observers included. -/
def step (cleanUrl : String → Option String) (s : State) : Event → State
  | Event.loadStarted data => msgLoadStarted data s
  | Event.loadFinished data => loadUrl cleanUrl s (msgLoadFinished data s).state
  | Event.metadata data => loadUrl cleanUrl s (msgMetadata data s)
  | Event.load data => loadUrl cleanUrl s (msgLoad data s)
  | Event.cookies cookies => msgCookies cookies s
  | Event.elapse ms => elapse ms s
  | Event.connection closed => loadUrl cleanUrl s { s with closed := closed }
  | Event.navigate url => loadUrl cleanUrl s { s with url := url }

/-- The state after a trace of events. -/
def run (cleanUrl : String → Option String) (s : State) (es : List Event) : State :=
  es.foldl (step cleanUrl) s

/-! ## Attaching and detaching -/

/-- Modelled from the spec: `webSocket.addCommand`, of the webSocket service
that is not part of this source file; the spec describes a handler registry
with symmetric register and unregister calls. Registering appends the entry. -/
def addCommand (command : String) (target : Nat) (method : String) (s : State) : State :=
  { s with commands := s.commands ++ [⟨command, target, method⟩] }

/-- Modelled from the spec: `webSocket.removeCommand`, of the webSocket service
that is not part of this source file. Unregistering removes the entry with the
same command, target and method. -/
def removeCommand (command : String) (target : Nat) (method : String) (s : State) : State :=
  { s with commands := s.commands.erase ⟨command, target, method⟩ }

/-- Modelled from the spec: `webSocket.connect`, of the webSocket service that is
not part of this source file: the transport is opened. -/
def connect (s : State) : State := { s with closed := false }

/-- Modelled from the spec: `webSocket.close`, of the webSocket service that is
not part of this source file: the transport is closed. -/
def close (s : State) : State := { s with closed := true }

/-- The seven handlers `willInsertElement` registers for the component `self`. -/
def handlers (self : Nat) : List Handler :=
  [⟨"loadStarted", self, "msgLoadStarted"⟩, ⟨"loadFinished", self, "msgLoadFinished"⟩,
   ⟨"metadata", self, "msgMetadata"⟩, ⟨"load", self, "msgLoad"⟩,
   ⟨"cookies", self, "msgCookies"⟩, ⟨"mutation", self, "msgMutation"⟩,
   ⟨"save_html", self, "noop"⟩]

/-- The hook `willInsertElement` of the component `self`. -/
def willInsertElement (self : Nat) (s : State) : Result :=
  if s.instances ≠ 0 then ⟨s, some Thrown.onlyOneInstance⟩
  else
    let s := { s with instances := s.instances + 1 }
    let s := connect s
    let s := addCommand "loadStarted" self "msgLoadStarted" s
    let s := addCommand "loadFinished" self "msgLoadFinished" s
    let s := addCommand "metadata" self "msgMetadata" s
    let s := addCommand "load" self "msgLoad" s
    let s := addCommand "cookies" self "msgCookies" s
    let s := addCommand "mutation" self "msgMutation" s
    let s := addCommand "save_html" self "noop" s
    ⟨s, none⟩

/-- The hook `willDestroyElement` of the component `self`. -/
def willDestroyElement (self : Nat) (s : State) : State :=
  let s := removeCommand "loadStarted" self "msgLoadStarted" s
  let s := removeCommand "loadFinished" self "msgLoadFinished" s
  let s := removeCommand "metadata" self "msgMetadata" s
  let s := removeCommand "load" self "msgLoad" s
  let s := removeCommand "cookies" self "msgCookies" s
  let s := removeCommand "mutation" self "msgMutation" s
  let s := removeCommand "save_html" self "noop" s
  let s := close s
  let s := { s with disabled := true, document := none }
  { s with instances := s.instances - 1 }

/-- A view is attached or detached. -/
inductive Lifecycle where
  | attach (self : Nat)
  | detach (self : Nat)
deriving DecidableEq, Repr

/-- Runs a sequence of attach and detach hooks. `live` lists the components
whose attach succeeded and that were not detached since. A detach of a
component that is not live makes the sequence ill-formed (`none`). -/
def runLifecycle : List Nat → State → List Lifecycle → Option (List Nat × State)
  | live, s, [] => some (live, s)
  | live, s, Lifecycle.attach c :: es =>
    if (willInsertElement c s).thrown.isSome then
      runLifecycle live (willInsertElement c s).state es
    else runLifecycle (c :: live) (willInsertElement c s).state es
  | live, s, Lifecycle.detach c :: es =>
    if c ∈ live then runLifecycle (live.erase c) (willDestroyElement c s) es else none

/-! ## Mutations -/

/-- The payload `data._data = [action, ...args]` of a `mutation` message. -/
structure Mutation where
  action : String
  args : List String
deriving DecidableEq, Repr

/-- The fields `msgMutation` and `clearIframe` work on. The `k`-th call of
`clearIframe` gets the frame id `k` (in place of `shortGuid()`), and the promise
it starts is named by that id: `settled k` tells whether the ready message of
frame `k` was handled, `callbacks k` holds the operations chained with `then`
on the promise while it is pending. The window listener of frame `k` is bound
while `k < issued` and `settled k = false`. `applied` logs every operation
applied, with the frame whose `TreeMirror` received it. -/
structure Mirror where
  issued : Nat
  settled : Nat → Bool
  callbacks : Nat → List Mutation
  iframePromise : Option Nat
  treeMirror : Option Nat
  document : Option Nat
  applied : List (Nat × Mutation)
  contentChanged : Nat
  typeErrors : Nat

/-- The component before any mutation message. -/
def Mirror.empty : Mirror where
  issued := 0
  settled := fun _ => false
  callbacks := fun _ => []
  iframePromise := none
  treeMirror := none
  document := none
  applied := []
  contentChanged := 0
  typeErrors := 0

/-- The method `clearIframe`: the frame is pointed at a fresh empty page, a
listener waits for its ready message, and the promise of that message is
returned. -/
def clearIframe (s : Mirror) : Nat × Mirror :=
  (s.issued, { s with issued := s.issued + 1 })

/-- The callback chained by `msgMutation`: the operation is applied to the
current `treeMirror` and `contentChanged` is triggered. Without a mirror the
call is a `TypeError`. -/
def applyMutation (s : Mirror) (m : Mutation) : Mirror :=
  match s.treeMirror with
  | some t => { s with applied := s.applied ++ [(t, m)], contentChanged := s.contentChanged + 1 }
  | none => { s with typeErrors := s.typeErrors + 1 }

/-- The handler `msgMutation`. A callback chained on a settled promise runs
before any later event; on a pending promise it waits in its queue. -/
def msgMutation (m : Mutation) (s : Mirror) : Mirror :=
  let s :=
    if m.action = "initialize" then
      let (frame, s) := clearIframe s
      { s with iframePromise := some frame }
    else s
  match s.iframePromise with
  | none => { s with typeErrors := s.typeErrors + 1 }
  | some p =>
    if s.settled p then applyMutation s m
    else { s with callbacks := fun k => if k = p then s.callbacks p ++ [m] else s.callbacks k }

/-- The window message `frameReady === frame`: when the listener of that frame
is bound, the document is published, the listener unbound and the promise
resolved; its first callback builds the `TreeMirror` on the frame document and
the chained operations follow in the order they were chained. -/
def frameReady (frame : Nat) (s : Mirror) : Mirror :=
  if frame < s.issued ∧ s.settled frame = false then
    let s := { s with document := some frame }
    let s := { s with settled := fun k => if k = frame then true else s.settled k }
    let s := { s with treeMirror := some frame }
    (s.callbacks frame).foldl applyMutation
      { s with callbacks := fun k => if k = frame then [] else s.callbacks k }
  else s

/-- What reaches the mutation mirror: a `mutation` message or a ready message. -/
inductive MirrorEvent where
  | mutation (m : Mutation)
  | ready (frame : Nat)
deriving DecidableEq, Repr

/-- The reaction of the mirror to one event. -/
def mirrorStep (s : Mirror) : MirrorEvent → Mirror
  | MirrorEvent.mutation m => msgMutation m s
  | MirrorEvent.ready frame => frameReady frame s

/-- The mirror after a trace of events. -/
def mirrorRun (s : Mirror) (es : List MirrorEvent) : Mirror :=
  es.foldl mirrorStep s

/-- The mutation messages of a trace in arrival order, each with the number of
`initialize` messages that arrived before it or with it, less one: the frame
of the `initialize` that precedes it. `n` counts the earlier ones. -/
def arrivals : Nat → List MirrorEvent → List (Nat × Mutation)
  | _, [] => []
  | n, MirrorEvent.mutation m :: es =>
    if m.action = "initialize" then (n, m) :: arrivals (n + 1) es
    else (n - 1, m) :: arrivals n es
  | n, MirrorEvent.ready _ :: es => arrivals n es

/-- Some frame issued after frame `k` has already signalled ready. -/
def laterSettled (s : Mirror) (k : Nat) : Bool :=
  (List.range s.issued).any fun j => decide (k < j) && s.settled j

/-- The ready messages that are handled come in the order of their frames: no
ready message finds its listener bound after a frame issued later has
signalled. `clearIframe` points the one iframe element at each new page, so
the page of an earlier call is gone once a later page has signalled. Ready
messages that find no listener (an unknown frame, or a repeated message) are
not restricted. -/
def inFrameOrder : Mirror → List MirrorEvent → Bool
  | _, [] => true
  | s, MirrorEvent.mutation m :: es => inFrameOrder (msgMutation m s) es
  | s, MirrorEvent.ready k :: es =>
    !(decide (k < s.issued) && !s.settled k && laterSettled s k) &&
      inFrameOrder (frameReady k s) es

/-- No `initialize` message arrives while the promise of an earlier one is
pending. -/
def noOverlap : Mirror → List MirrorEvent → Bool
  | _, [] => true
  | s, MirrorEvent.mutation m :: es =>
    (if m.action = "initialize" then
      match s.iframePromise with
      | none => true
      | some p => s.settled p
    else true) && noOverlap (msgMutation m s) es
  | s, MirrorEvent.ready k :: es => noOverlap (frameReady k s) es

/-- What holds of the mirror after a trace whose handled ready messages come in
the order of their frames, `arr` being the mutation messages so far with their
frames: the log is `arr` restricted to the settled frames, the queue of a
pending promise holds the messages of its frame, the frames of `arr` ascend
and are issued, the current promise is the last one issued, and the current
`TreeMirror` is that of the highest settled frame. -/
structure MirrorInv (s : Mirror) (arr : List (Nat × Mutation)) : Prop where
  applied_eq : s.applied = arr.filter fun a => s.settled a.1
  callbacks_eq : ∀ k, s.settled k = false →
    s.callbacks k = (arr.filter fun a => decide (a.1 = k)).map Prod.snd
  sorted : arr.Pairwise fun a b => a.1 ≤ b.1
  issued_frames : ∀ a ∈ arr, a.1 < s.issued
  issued_pos : 1 ≤ s.issued
  current : s.iframePromise = some (s.issued - 1)
  settled_issued : ∀ k, s.settled k = true → k < s.issued
  mirror_top : ∀ k, s.settled k = true →
    ∃ t, s.treeMirror = some t ∧ k ≤ t ∧ s.settled t = true

/-! ## Outcomes of the guard of `_loadUrl` -/

/-- The attempt goes through: nothing is thrown, the reconnect indicator is
cleared, `loading` is true and one `load` command for `url` is appended to the
messages sent. -/
def Allowed (s : State) (url : String) (r : Result) : Prop :=
  r.thrown = none ∧ r.state.reconnectComponent = none ∧ r.state.loading = true ∧
    r.state.sent = s.sent ++
      [Command.load (iframeSize s) s.userAgent (loadCookies s) s.project s.spider url s.baseurl]

/-- The attempt is hard-blocked. -/
def HardBlocked (s : State) (url : String) (r : Result) : Prop :=
  r.thrown = some (Thrown.urlBlocked url) ∧
    r.state.reconnectComponent = some "browser-url-blocked" ∧ r.state.loading = false ∧
    r.state.sent = s.sent

/-- The attempt is soft-blocked. -/
def SoftBlocked (s : State) (url : String) (r : Result) : Prop :=
  r.thrown = some (Thrown.urlFailing url) ∧
    r.state.reconnectComponent = some "browser-url-failing" ∧ r.state.loading = false ∧
    r.state.sent = s.sent

/-- The url passes the validation at the head of `_loadUrl`. -/
def ValidUrl (cleanUrl : String → Option String) (url : String) : Prop :=
  url ≠ "" ∧ includes url "://" = true ∧ truthy (cleanUrl url) = true


/-! ## The guard of `_loadUrl` -/

theorem validUrl_guard {cleanUrl : String → Option String} {s : State} {url : String}
    (hurl : s.url = some url) (hv : ValidUrl cleanUrl url) :
    (!truthy s.url || !includes url "://" || !truthy (cleanUrl url)) = false := by
  obtain ⟨h1, h2, h3⟩ := hv
  have h0 : truthy (some url) = true := by simp [truthy, h1]
  rw [hurl, h0, h2, h3]
  rfl

/-- The state in which `_loadUrl` lets an attempt through. -/
theorem loadUrl_proceed_allowed (s : State) (url : String) :
    Allowed s url ⟨visit url s.baseurl { s with reconnectComponent := none }, none⟩ :=
  ⟨rfl, rfl, rfl, rfl⟩

theorem loadUrl_open_no_record (cleanUrl : String → Option String) (s : State) (url : String)
    (hurl : s.url = some url) (hv : ValidUrl cleanUrl url)
    (hopen : s.closed = false) (hsplash : s.splashUrl ≠ some url)
    (h : ∀ r, s.pageLoadStore (hashString url) ≠ StoreValue.record r) :
    _loadUrl cleanUrl s = ⟨visit url s.baseurl { s with reconnectComponent := none }, none⟩ := by
  have hg := validUrl_guard hurl hv
  have hurl2 : s.url.getD "" = url := by simp [hurl]
  unfold _loadUrl
  simp only [hg, hopen, hurl2, hsplash, Bool.false_eq_true, if_false]

theorem loadUrl_open_record (cleanUrl : String → Option String) (s : State) (url : String)
    (hurl : s.url = some url) (hv : ValidUrl cleanUrl url)
    (hopen : s.closed = false) (hsplash : s.splashUrl ≠ some url)
    (r : FailureRecord) (hr : s.pageLoadStore (hashString url) = StoreValue.record r) :
    _loadUrl cleanUrl s =
      if withinHour s.now r.dt then
        if decide (r.failed > 3) && s.onLine then
          ⟨{ s with reconnectComponent := some "browser-url-blocked", loading := false },
            some (Thrown.urlBlocked url)⟩
        else if r.failed > 2 then
          if !truthy s.reconnectComponent then
            ⟨{ s with reconnectComponent := some "browser-url-failing", loading := false },
              some (Thrown.urlFailing url)⟩
          else ⟨visit url s.baseurl { s with reconnectComponent := none }, none⟩
        else ⟨visit url s.baseurl { s with reconnectComponent := none }, none⟩
      else ⟨visit url s.baseurl { s with reconnectComponent := none }, none⟩ := by
  have hg := validUrl_guard hurl hv
  have hurl2 : s.url.getD "" = url := by simp [hurl]
  unfold _loadUrl
  simp only [hg, hopen, hurl2, hsplash, Bool.false_eq_true, if_false, hr]

/-- C1. For a valid url, with the transport open and `splashUrl` different from
the url, `_loadUrl` decides on the stored record `r` of the url. When it is
absent, `null` or one hour or more old the attempt is allowed. Otherwise more
than 3 failures while online hard-block; else more than 2 failures with the
reconnect indicator unset (falsy) soft-block; every other case is allowed. -/
theorem loadUrl_guard_decision (cleanUrl : String → Option String) (s : State) (url : String)
    (hurl : s.url = some url) (hv : ValidUrl cleanUrl url)
    (hopen : s.closed = false) (hsplash : s.splashUrl ≠ some url) :
    (((∀ r, s.pageLoadStore (hashString url) ≠ StoreValue.record r) ∨
        (∃ r, s.pageLoadStore (hashString url) = StoreValue.record r ∧
          1000 * 3600 ≤ s.now - r.dt)) →
      Allowed s url (_loadUrl cleanUrl s)) ∧
    (∀ r, s.pageLoadStore (hashString url) = StoreValue.record r →
      s.now - r.dt < 1000 * 3600 →
      ((3 < r.failed ∧ s.onLine = true → HardBlocked s url (_loadUrl cleanUrl s)) ∧
       (¬ (3 < r.failed ∧ s.onLine = true) →
          (2 < r.failed ∧ truthy s.reconnectComponent = false →
            SoftBlocked s url (_loadUrl cleanUrl s)) ∧
          (¬ (2 < r.failed ∧ truthy s.reconnectComponent = false) →
            Allowed s url (_loadUrl cleanUrl s))))) := by
  refine ⟨?_, ?_⟩
  · rintro (h | ⟨r, hr, hstale⟩)
    · rw [loadUrl_open_no_record cleanUrl s url hurl hv hopen hsplash h]
      exact loadUrl_proceed_allowed s url
    · have hw : withinHour s.now r.dt = false := by
        simp only [withinHour, decide_eq_false_iff_not]; omega
      rw [loadUrl_open_record cleanUrl s url hurl hv hopen hsplash r hr, hw]
      exact loadUrl_proceed_allowed s url
  · intro r hr hfresh
    have hw : withinHour s.now r.dt = true := by
      simp only [withinHour, decide_eq_true_eq]; omega
    rw [loadUrl_open_record cleanUrl s url hurl hv hopen hsplash r hr, hw]
    simp only [if_true]
    refine ⟨?_, ?_⟩
    · rintro ⟨h3, hon⟩
      have hc : (decide (r.failed > 3) && s.onLine) = true := by simp [h3, hon]
      rw [if_pos hc]
      exact ⟨rfl, rfl, rfl, rfl⟩
    · intro hnot
      have hc : ¬ (decide (r.failed > 3) && s.onLine) = true := by
        intro hc
        simp only [Bool.and_eq_true, decide_eq_true_eq] at hc
        exact hnot hc
      rw [if_neg hc]
      refine ⟨?_, ?_⟩
      · rintro ⟨h2, hrc⟩
        have hn : (!truthy s.reconnectComponent) = true := by simp [hrc]
        rw [if_pos h2, if_pos hn]
        exact ⟨rfl, rfl, rfl, rfl⟩
      · intro hnot2
        by_cases h2 : r.failed > 2
        · have hn : ¬ (!truthy s.reconnectComponent) = true := by
            intro hn
            apply hnot2
            refine ⟨h2, ?_⟩
            simpa using hn
          rw [if_pos h2, if_neg hn]
          exact loadUrl_proceed_allowed s url
        · rw [if_neg h2]
          exact loadUrl_proceed_allowed s url

/-- C1, at a concrete state: a fresh record with 4 failures while online. -/
theorem loadUrl_guard_decision_witness :
    HardBlocked
      (setPageLoad (hashString "http://example.com")
        (StoreValue.record ⟨4, [], 0, "http://example.com"⟩)
        (initialState (some "http://example.com")))
      "http://example.com"
      (_loadUrl some
        (setPageLoad (hashString "http://example.com")
          (StoreValue.record ⟨4, [], 0, "http://example.com"⟩)
          (initialState (some "http://example.com")))) :=
  ((loadUrl_guard_decision some
      (setPageLoad (hashString "http://example.com")
        (StoreValue.record ⟨4, [], 0, "http://example.com"⟩)
        (initialState (some "http://example.com")))
      "http://example.com" rfl ⟨by decide, by decide, by decide⟩ rfl (by decide)).2
    ⟨4, [], 0, "http://example.com"⟩ (by simp [setPageLoad]) (by decide)).1 ⟨by decide, rfl⟩

/-! ## The failure store -/

theorem failedLoad_of_url (reason : Option String) (s : State) (url : String)
    (hurl : s.url = some url) (hne : url ≠ "") :
    failedLoad reason s =
      setPageLoad (hashString url)
        (StoreValue.record
          ⟨(match s.pageLoadStore (hashString url) with
            | StoreValue.record data =>
              if withinHour s.now data.dt then (data.failed + 1, data.reason) else (0, [])
            | _ => (0, [])).1,
           (match s.pageLoadStore (hashString url) with
            | StoreValue.record data =>
              if withinHour s.now data.dt then (data.failed + 1, data.reason) else (0, [])
            | _ => (0, [])).2 ++ [reasonOrSlow reason], s.now, url⟩) s := by
  have h0 : truthy s.url = true := by simp [hurl, truthy, hne]
  have h1 : s.url.getD "" = url := by simp [hurl]
  unfold failedLoad
  simp only [h0, h1, Bool.not_true, Bool.false_eq_true, if_false]

theorem failedLoad_url (reason : Option String) (s : State) :
    (failedLoad reason s).url = s.url := by
  unfold failedLoad
  split <;> rfl

theorem failedLoad_fresh (reason : Option String) (s : State) (url : String)
    (hurl : s.url = some url) (hne : url ≠ "")
    (h : (∀ r, s.pageLoadStore (hashString url) ≠ StoreValue.record r) ∨
        (∃ r, s.pageLoadStore (hashString url) = StoreValue.record r ∧
          1000 * 3600 ≤ s.now - r.dt)) :
    (failedLoad reason s).pageLoadStore (hashString url) =
      StoreValue.record ⟨0, [reasonOrSlow reason], s.now, url⟩ := by
  rw [failedLoad_of_url reason s url hurl hne]
  rcases h with h | ⟨r, hr, hstale⟩
  · simp only [setPageLoad, if_true]
    cases hrec : s.pageLoadStore (hashString url) with
    | undefined => rfl
    | null => rfl
    | record r => exact absurd hrec (h r)
  · have hw : withinHour s.now r.dt = false := by
      simp only [withinHour, decide_eq_false_iff_not]; omega
    simp only [setPageLoad, if_true, hr, hw]
    rfl

theorem failedLoad_within (reason : Option String) (s : State) (url : String)
    (hurl : s.url = some url) (hne : url ≠ "") (r : FailureRecord)
    (hr : s.pageLoadStore (hashString url) = StoreValue.record r)
    (hfresh : s.now - r.dt < 1000 * 3600) :
    (failedLoad reason s).pageLoadStore (hashString url) =
      StoreValue.record ⟨r.failed + 1, r.reason ++ [reasonOrSlow reason], s.now, url⟩ := by
  rw [failedLoad_of_url reason s url hurl hne]
  have hw : withinHour s.now r.dt = true := by
    simp only [withinHour, decide_eq_true_eq]; omega
  simp only [setPageLoad, if_true, hr, hw]

theorem failAll_within (url : String) (hne : url ≠ "") (es : List (Int × Option String)) :
    ∀ (s : State) (r : FailureRecord), s.url = some url →
      s.pageLoadStore (hashString url) = StoreValue.record r →
      List.Chain (fun a b : Int => b - a < 1000 * 3600) r.dt (es.map Prod.fst) →
      ∃ r2, (failAll s es).pageLoadStore (hashString url) = StoreValue.record r2 ∧
        r2.failed = r.failed + es.length ∧
        r2.reason = r.reason ++ es.map (fun e => reasonOrSlow e.2) := by
  induction es with
  | nil =>
    intro s r _ hr _
    exact ⟨r, hr, by simp, by simp⟩
  | cons e es ih =>
    intro s r hurl hr hchain
    rw [List.map_cons, List.chain_cons] at hchain
    obtain ⟨hgap, hrest⟩ := hchain
    have hurl1 : ({ s with now := e.1 } : State).url = some url := hurl
    have hstep := failedLoad_within e.2 { s with now := e.1 } url hurl1 hne r hr hgap
    have hurl2 : (failAt s e).url = some url := by
      unfold failAt
      rw [failedLoad_url]
      exact hurl
    obtain ⟨r2, h2, hf, hre⟩ := ih (failAt s e) _ hurl2 hstep hrest
    refine ⟨r2, h2, ?_, ?_⟩
    · rw [hf]; simp only [List.length_cons]; omega
    · rw [hre]; simp

/-- C3. With a non-empty current url, `failedLoad` writes the record at key
`hashString url` and no other key. Over an absent, `null` or stale record it
writes `failed = 0` with the single reason; over a record less than one hour
old it writes `failed + 1` with the reason appended; `dt` is now and `url` the
current url. Hence `k ≥ 1` failures with gaps under one hour, from no record,
leave `failed = k - 1` and `k` reasons. With no url nothing changes. -/
theorem failedLoad_record (reason : Option String) (s : State) (url : String)
    (hurl : s.url = some url) (hne : url ≠ "") :
    (∀ k, k ≠ hashString url →
      (failedLoad reason s).pageLoadStore k = s.pageLoadStore k) ∧
    (((∀ r, s.pageLoadStore (hashString url) ≠ StoreValue.record r) ∨
        (∃ r, s.pageLoadStore (hashString url) = StoreValue.record r ∧
          1000 * 3600 ≤ s.now - r.dt)) →
      (failedLoad reason s).pageLoadStore (hashString url) =
        StoreValue.record ⟨0, [reasonOrSlow reason], s.now, url⟩) ∧
    (∀ r, s.pageLoadStore (hashString url) = StoreValue.record r →
      s.now - r.dt < 1000 * 3600 →
      (failedLoad reason s).pageLoadStore (hashString url) =
        StoreValue.record ⟨r.failed + 1, r.reason ++ [reasonOrSlow reason], s.now, url⟩) ∧
    (reasonOrSlow none = "slow" ∧ reasonOrSlow (some "") = "slow" ∧
      ∀ x, x ≠ "" → reasonOrSlow (some x) = x) ∧
    (∀ (e : Int × Option String) (es : List (Int × Option String)),
      (∀ r, s.pageLoadStore (hashString url) ≠ StoreValue.record r) →
      List.Chain (fun a b : Int => b - a < 1000 * 3600) e.1 (es.map Prod.fst) →
      ∃ r, (failAll s (e :: es)).pageLoadStore (hashString url) = StoreValue.record r ∧
        r.failed = (e :: es).length - 1 ∧ r.reason.length = (e :: es).length) ∧
    (∀ s0 : State, truthy s0.url = false → failedLoad reason s0 = s0) := by
  refine ⟨?_, failedLoad_fresh reason s url hurl hne, ?_, ?_, ?_, ?_⟩
  · intro k hk
    rw [failedLoad_of_url reason s url hurl hne]
    simp only [setPageLoad, if_neg hk]
  · intro r hr hfresh
    exact failedLoad_within reason s url hurl hne r hr hfresh
  · refine ⟨rfl, rfl, ?_⟩
    intro x hx
    simp [reasonOrSlow, truthy, hx]
  · intro e es hnone hchain
    have hurl1 : ({ s with now := e.1 } : State).url = some url := hurl
    have hstep := failedLoad_fresh e.2 { s with now := e.1 } url hurl1 hne (Or.inl hnone)
    have hurl2 : (failAt s e).url = some url := by
      unfold failAt
      rw [failedLoad_url]
      exact hurl
    obtain ⟨r2, h2, hf, hre⟩ := failAll_within url hne es (failAt s e) _ hurl2 hstep hchain
    refine ⟨r2, h2, ?_, ?_⟩
    · rw [hf]; simp
    · rw [hre]; simp
  · intro s0 h0
    unfold failedLoad
    simp [h0]

/-- C3, at a concrete state: three failures in one window from no record. -/
theorem failedLoad_record_witness :
    ∃ r, (failAll (initialState (some "http://example.com"))
        [(0, none), (1000, some "server_disconnect"), (2000, none)]).pageLoadStore
          (hashString "http://example.com") = StoreValue.record r ∧
      r.failed = 2 ∧ r.reason.length = 3 :=
  (failedLoad_record none (initialState (some "http://example.com")) "http://example.com"
    rfl (by decide)).2.2.2.2.1 (0, none) [(1000, some "server_disconnect"), (2000, none)]
    (by intro r h; exact StoreValue.noConfusion h)
    (List.Chain.cons (by decide) (List.Chain.cons (by decide) List.Chain.nil))

/-! ## Block thresholds counted in failures -/

/-- C2. From no record, online, indicator unset, all within one hour: after
three calls of `failedLoad` the stored count is 2 and the guard of `_loadUrl`
lets the attempt through (one `load` command is sent, nothing is thrown); the
soft block comes only after the fourth call and the hard block after the
fifth. -/
theorem thresholds_reached_one_failure_late :
    ((failAll (initialState (some "http://example.com"))
        [(0, none), (1000, none), (2000, none)]).pageLoadStore
          (hashString "http://example.com") =
        StoreValue.record ⟨2, ["slow", "slow", "slow"], 2000, "http://example.com"⟩) ∧
    (_loadUrl some
        { failAll (initialState (some "http://example.com"))
            [(0, none), (1000, none), (2000, none)] with now := 3000 }).thrown = none ∧
    ((_loadUrl some
        { failAll (initialState (some "http://example.com"))
            [(0, none), (1000, none), (2000, none)] with now := 3000 }).state.sent.map
        fun c => match c with
          | Command.load _ _ _ _ _ url _ => some url
          | _ => none) = [some "http://example.com"] ∧
    (_loadUrl some
        { failAll (initialState (some "http://example.com"))
            [(0, none), (1000, none), (2000, none), (3000, none)] with now := 4000 }).thrown =
      some (Thrown.urlFailing "http://example.com") ∧
    (_loadUrl some
        { failAll (initialState (some "http://example.com"))
            [(0, none), (1000, none), (2000, none), (3000, none)] with
              now := 4000 }).state.reconnectComponent = some "browser-url-failing" ∧
    (_loadUrl some
        { failAll (initialState (some "http://example.com"))
            [(0, none), (1000, none), (2000, none), (3000, none), (4000, none)] with
              now := 5000 }).thrown =
      some (Thrown.urlBlocked "http://example.com") := by
  set_option maxRecDepth 100000 in
  refine ⟨by decide, by decide, by decide, by decide, by decide, by decide⟩

/-! ## Disconnects and the watchdog -/

/-- C4. A `loadStarted` with an id followed by `loadFinished` leaves no attempt
outstanding (`lastLoadData` is null, no timer is pending, no record is stored),
yet `lastLoadPromise` is still set, and when the transport then closes
`_loadUrl` records a `server_disconnect` failure. When the watchdog has fired
and recorded `slow`, the closing transport records a second failure for the
same attempt. -/
theorem disconnect_records_without_outstanding_attempt :
    (run some (initialState (some "http://example.com"))
        [Event.loadStarted ⟨some "1", some "http://example.com"⟩,
         Event.loadFinished ⟨true, some "http://example.com", false⟩]).lastLoadData = none ∧
    (run some (initialState (some "http://example.com"))
        [Event.loadStarted ⟨some "1", some "http://example.com"⟩,
         Event.loadFinished ⟨true, some "http://example.com", false⟩]).timers = [] ∧
    (run some (initialState (some "http://example.com"))
        [Event.loadStarted ⟨some "1", some "http://example.com"⟩,
         Event.loadFinished ⟨true, some "http://example.com", false⟩]).lastLoadPromise =
      some 0 ∧
    (run some (initialState (some "http://example.com"))
        [Event.loadStarted ⟨some "1", some "http://example.com"⟩,
         Event.loadFinished ⟨true, some "http://example.com", false⟩]).pageLoadStore
          (hashString "http://example.com") = StoreValue.undefined ∧
    (run some (initialState (some "http://example.com"))
        [Event.loadStarted ⟨some "1", some "http://example.com"⟩,
         Event.loadFinished ⟨true, some "http://example.com", false⟩,
         Event.connection true]).pageLoadStore (hashString "http://example.com") =
      StoreValue.record ⟨0, ["server_disconnect"], 0, "http://example.com"⟩ ∧
    (run some (initialState (some "http://example.com"))
        [Event.loadStarted ⟨some "1", some "http://example.com"⟩,
         Event.elapse 60000]).pageLoadStore (hashString "http://example.com") =
      StoreValue.record ⟨0, ["slow"], 60000, "http://example.com"⟩ ∧
    (run some (initialState (some "http://example.com"))
        [Event.loadStarted ⟨some "1", some "http://example.com"⟩,
         Event.elapse 60000,
         Event.connection true]).pageLoadStore (hashString "http://example.com") =
      StoreValue.record ⟨1, ["slow", "server_disconnect"], 60000, "http://example.com"⟩ := by
  set_option maxRecDepth 100000 in
  refine ⟨by decide, by decide, by decide, by decide, by decide, by decide, by decide⟩

/-- C5. Two `loadStarted` messages with ids arrive 10 s apart and `loadFinished`
arrives 10 s later, 20 s after the first one. `loadFinished` cancels only the
second watchdog: the first one is still pending, fires at 60 s and records a
`slow` failure. -/
theorem watchdog_of_replaced_attempt_fires :
    (run some (initialState (some "http://example.com"))
        [Event.loadStarted ⟨some "1", some "http://example.com"⟩, Event.elapse 10000,
         Event.loadStarted ⟨some "2", some "http://example.com"⟩, Event.elapse 10000,
         Event.loadFinished ⟨true, some "http://example.com", false⟩]).timers =
      [⟨0, 60000⟩] ∧
    (run some (initialState (some "http://example.com"))
        [Event.loadStarted ⟨some "1", some "http://example.com"⟩, Event.elapse 10000,
         Event.loadStarted ⟨some "2", some "http://example.com"⟩, Event.elapse 10000,
         Event.loadFinished ⟨true, some "http://example.com", false⟩,
         Event.elapse 60000]).pageLoadStore (hashString "http://example.com") =
      StoreValue.record ⟨0, ["slow"], 60000, "http://example.com"⟩ := by
  set_option maxRecDepth 100000 in
  refine ⟨by decide, by decide⟩

/-! ## The hash as a number -/

theorem hashStep_mod (h : Int) (c : Char) :
    hashStep h c % 4294967296 =
      (33 * (h % 4294967296) + (charCodeAt0 c : Int)) % 4294967296 := by
  unfold hashStep shiftLeft toInt32
  have h5 : (2 : Int) ^ 5 = 32 := by norm_num
  simp only [h5]
  generalize (charCodeAt0 c : Int) = k
  split_ifs <;> omega

theorem foldl_hashStep_mod (cs : List Char) :
    ∀ (h : Int) (n : Nat), h % 4294967296 = (n : Int) →
      (cs.foldl hashStep h) % 4294967296 =
        ((cs.foldl (fun h c => (33 * h + charCodeAt0 c) % 2 ^ 32) n : Nat) : Int) := by
  induction cs with
  | nil => intro h n hn; simpa using hn
  | cons c cs ih =>
    intro h n hn
    rw [List.foldl_cons, List.foldl_cons]
    apply ih
    rw [hashStep_mod, hn]
    push_cast
    norm_num

/-- The number the loop of `hashString` ends with is congruent modulo `2^32` to
the 32-bit hash of the specification; it is not reduced to that range. -/
theorem hashLoop_mod (s : String) : hashLoop s % 4294967296 = (djb2Spec s : Int) :=
  foldl_hashStep_mod s.data 5381 5381 (by decide)

/-- C6. On this url the loop of `hashString` ends below `-2^32`; one addition
of `2^32` leaves it negative and the result begins with a minus sign. -/
theorem hashString_negative :
    hashLoop "https://www.example.com/blog" = -4432410097 ∧
    hashString "https://www.example.com/blog" = "-83135f1" ∧
    (hashString "https://www.example.com/blog").data.head? = some '-' := by
  set_option maxRecDepth 100000 in
  refine ⟨by decide, by decide, by decide⟩

/-- C7. On this url the loop of `hashString` ends above `2^32`: the result has
nine hexadecimal digits and is not the rendering of the 32-bit hash of the
specification, which is `19fed68b`. -/
theorem hashString_exceeds_32_bits :
    hashLoop "http://example.org/page/1" = 4731098763 ∧
    hashString "http://example.org/page/1" = "119fed68b" ∧
    (hashString "http://example.org/page/1").length = 9 ∧
    numberToString16 (djb2Spec "http://example.org/page/1") = "19fed68b" := by
  set_option maxRecDepth 100000 in
  refine ⟨by decide, by decide, by decide, by decide⟩

/-! ## The cookie key -/

theorem replaceDots_data (t : String) :
    (replaceDots t).data = t.data.map fun c => if c = '.' then '_' else c := rfl

/-- C9. For non-empty project `p` and spider `sp`, `cookieId` is the string
`cookies:p/sp` with the dots replaced: it contains no dot, has the same length,
and at every position holds `_` where the original holds a dot and the original
character elsewhere. For `p.1` and `s.1` it is `cookies:p_1/s_1`. When the
project or the spider is empty or missing there is no key and `loadCookies`
returns the empty object. -/
theorem cookieId_key (s : State) (p sp : String)
    (hp : s.project = some p) (hs : s.spider = some sp) (hpne : p ≠ "") (hsne : sp ≠ "") :
    cookieId s = some (replaceDots ("cookies:" ++ p ++ "/" ++ sp)) ∧
    '.' ∉ (replaceDots ("cookies:" ++ p ++ "/" ++ sp)).data ∧
    (replaceDots ("cookies:" ++ p ++ "/" ++ sp)).data.length =
      ("cookies:" ++ p ++ "/" ++ sp).data.length ∧
    (∀ (i : Nat) (c : Char), ("cookies:" ++ p ++ "/" ++ sp).data[i]? = some c →
      (replaceDots ("cookies:" ++ p ++ "/" ++ sp)).data[i]? =
        some (if c = '.' then '_' else c)) ∧
    cookieId { s with project := some "p.1", spider := some "s.1" } = some "cookies:p_1/s_1" ∧
    (∀ s0 : State, truthy s0.project = false ∨ truthy s0.spider = false →
      cookieId s0 = none ∧ loadCookies s0 = CookieJar.emptyObject) := by
  refine ⟨?_, ?_, ?_, ?_, ?_, ?_⟩
  · simp [cookieId, hp, hs, truthy, hpne, hsne]
  · rw [replaceDots_data]
    intro hmem
    rw [List.mem_map] at hmem
    obtain ⟨c, _, hc⟩ := hmem
    by_cases h : c = '.'
    · rw [if_pos h] at hc
      exact absurd hc (by decide)
    · rw [if_neg h] at hc
      exact h hc
  · rw [replaceDots_data, List.length_map]
  · intro i c hc
    rw [replaceDots_data, List.getElem?_map, hc]
    rfl
  · rfl
  · intro s0 h0
    have hid : cookieId s0 = none := by
      unfold cookieId
      rcases h0 with h | h <;> simp [h]
    refine ⟨hid, ?_⟩
    unfold loadCookies
    simp [hid, truthy]

/-- C9, at the project `p.1` and the spider `s.1`. -/
theorem cookieId_key_witness :
    cookieId { initialState none with project := some "p.1", spider := some "s.1" } =
      some (replaceDots ("cookies:" ++ "p.1" ++ "/" ++ "s.1")) :=
  (cookieId_key { initialState none with project := some "p.1", spider := some "s.1" }
    "p.1" "s.1" rfl rfl (by decide) (by decide)).1

/-! ## The instance counter -/

theorem willInsertElement_of_zero (c : Nat) (s : State) (h0 : s.instances = 0) :
    (willInsertElement c s).thrown = none ∧
    (willInsertElement c s).state.instances = 1 ∧
    (willInsertElement c s).state.commands = s.commands ++ handlers c := by
  unfold willInsertElement
  simp [h0, addCommand, connect, handlers]

theorem willInsertElement_of_nonzero (c : Nat) (s : State) (h0 : s.instances ≠ 0) :
    willInsertElement c s = ⟨s, some Thrown.onlyOneInstance⟩ := by
  unfold willInsertElement
  simp [h0]

theorem willDestroyElement_instances (c : Nat) (s : State) :
    (willDestroyElement c s).instances = s.instances - 1 := by
  simp only [willDestroyElement, removeCommand, close]

theorem willDestroyElement_commands (c : Nat) (s : State) :
    (willDestroyElement c s).commands =
      (handlers c).foldl (fun l h => l.erase h) s.commands := by
  simp only [willDestroyElement, removeCommand, close, handlers, List.foldl_cons, List.foldl_nil]

theorem erase_handlers (l hs : List Handler) (hnd : hs.Nodup) (hfree : ∀ h ∈ hs, h ∉ l) :
    hs.foldl (fun l h => l.erase h) (l ++ hs) = l := by
  induction hs with
  | nil => simp
  | cons h hs ih =>
    rw [List.foldl_cons]
    have h1 : h ∉ l := hfree h (List.mem_cons_self h hs)
    rw [List.erase_append_right _ h1, List.erase_cons_head]
    exact ih (List.nodup_cons.mp hnd).2 (fun x hx => hfree x (List.mem_cons_of_mem h hx))

theorem handlers_nodup (c : Nat) : (handlers c).Nodup := by
  simp [handlers]

theorem handlers_target (c : Nat) : ∀ h ∈ handlers c, h.target = c := by
  intro h hh
  simp only [handlers, List.mem_cons, List.mem_singleton, List.not_mem_nil, or_false] at hh
  rcases hh with rfl | rfl | rfl | rfl | rfl | rfl | rfl <;> rfl

/-- The counter agrees with the list of live components: none and 0, or one
and 1. -/
theorem runLifecycle_counter (es : List Lifecycle) :
    ∀ (live : List Nat) (s : State) (r : List Nat × State),
      ((live = [] ∧ s.instances = 0) ∨ (∃ c, live = [c] ∧ s.instances = 1)) →
      runLifecycle live s es = some r →
      ((r.1 = [] ∧ r.2.instances = 0) ∨ (∃ c, r.1 = [c] ∧ r.2.instances = 1)) := by
  induction es with
  | nil =>
    intro live s r hinv hrun
    simp only [runLifecycle, Option.some.injEq] at hrun
    subst hrun
    exact hinv
  | cons e es ih =>
    intro live s r hinv hrun
    cases e with
    | attach c =>
      simp only [runLifecycle] at hrun
      rcases hinv with ⟨hl, h0⟩ | ⟨d, hl, h1⟩
      · obtain ⟨ht, hi, _⟩ := willInsertElement_of_zero c s h0
        rw [ht] at hrun
        simp only [Option.isSome_none, Bool.false_eq_true, if_false] at hrun
        exact ih _ _ r (Or.inr ⟨c, by rw [hl], hi⟩) hrun
      · have hne : s.instances ≠ 0 := by rw [h1]; decide
        rw [willInsertElement_of_nonzero c s hne] at hrun
        simp only [Option.isSome_some, if_true] at hrun
        exact ih _ _ r (Or.inr ⟨d, hl, h1⟩) hrun
    | detach c =>
      simp only [runLifecycle] at hrun
      by_cases hc : c ∈ live
      · rw [if_pos hc] at hrun
        rcases hinv with ⟨hl, _⟩ | ⟨d, hl, h1⟩
        · rw [hl] at hc
          exact absurd hc (List.not_mem_nil c)
        · have hcd : c = d := by
            rw [hl] at hc
            exact List.mem_singleton.mp hc
          refine ih _ _ r (Or.inl ⟨?_, ?_⟩) hrun
          · rw [hl, hcd]; simp
          · rw [willDestroyElement_instances, h1]; rfl
      · rw [if_neg hc] at hrun
        exact absurd hrun (by simp)

/-- A prefix of a well-formed sequence is well-formed. -/
theorem runLifecycle_take (es : List Lifecycle) :
    ∀ (live : List Nat) (s : State) (r : List Nat × State) (n : Nat),
      runLifecycle live s es = some r →
      ∃ r2, runLifecycle live s (es.take n) = some r2 := by
  induction es with
  | nil =>
    intro live s r n _
    exact ⟨(live, s), by simp [runLifecycle]⟩
  | cons e es ih =>
    intro live s r n hrun
    cases n with
    | zero => exact ⟨(live, s), by simp [runLifecycle]⟩
    | succ n =>
      rw [List.take_succ_cons]
      cases e with
      | attach c =>
        simp only [runLifecycle] at hrun ⊢
        split
        · rename_i ht
          rw [if_pos ht] at hrun
          exact ih _ _ r n hrun
        · rename_i ht
          rw [if_neg ht] at hrun
          exact ih _ _ r n hrun
      | detach c =>
        simp only [runLifecycle] at hrun ⊢
        by_cases hc : c ∈ live
        · rw [if_pos hc] at hrun ⊢
          exact ih _ _ r n hrun
        · rw [if_neg hc] at hrun
          exact absurd hrun (by simp)

/-- C8. Starting from `instances = 0`: `willInsertElement` returns without
throwing exactly when the counter is 0, and then the counter is 1 and the seven
handlers are registered; a second attach before a detach throws and leaves the
state as it was; `willDestroyElement` after the attach returns the counter to 0
and the registry to what it was, so that a new attach succeeds. In every
sequence of hooks where each detach is of a live component, the counter is 0 or
1 after every hook. -/
theorem session_singleton (s : State) (c : Nat) (h0 : s.instances = 0) :
    (∀ (s1 : State) (c1 : Nat), (willInsertElement c1 s1).thrown = none ↔ s1.instances = 0) ∧
    ((willInsertElement c s).state.instances = 1 ∧
      (willInsertElement c s).state.commands = s.commands ++ handlers c ∧
      (handlers c).length = 7) ∧
    (∀ c2, (willInsertElement c2 (willInsertElement c s).state).thrown =
        some Thrown.onlyOneInstance ∧
      (willInsertElement c2 (willInsertElement c s).state).state =
        (willInsertElement c s).state) ∧
    ((willDestroyElement c (willInsertElement c s).state).instances = 0 ∧
      ((∀ h ∈ s.commands, h.target ≠ c) →
        (willDestroyElement c (willInsertElement c s).state).commands = s.commands) ∧
      ∀ c3, (willInsertElement c3
        (willDestroyElement c (willInsertElement c s).state)).thrown = none) ∧
    (∀ (es : List Lifecycle) (r : List Nat × State), runLifecycle [] s es = some r →
      ∀ n, ∃ r2, runLifecycle [] s (es.take n) = some r2 ∧
        (r2.2.instances = 0 ∨ r2.2.instances = 1)) := by
  obtain ⟨ht, hi, hcmd⟩ := willInsertElement_of_zero c s h0
  have hne : (willInsertElement c s).state.instances ≠ 0 := by rw [hi]; decide
  have hd : (willDestroyElement c (willInsertElement c s).state).instances = 0 := by
    rw [willDestroyElement_instances, hi]; rfl
  refine ⟨?_, ⟨hi, hcmd, rfl⟩, ?_, ⟨hd, ?_, ?_⟩, ?_⟩
  · intro s1 c1
    constructor
    · intro hthrown
      by_contra hnz
      rw [willInsertElement_of_nonzero c1 s1 hnz] at hthrown
      exact absurd hthrown (by simp)
    · intro hz
      exact (willInsertElement_of_zero c1 s1 hz).1
  · intro c2
    rw [willInsertElement_of_nonzero c2 _ hne]
    exact ⟨rfl, rfl⟩
  · intro hfree
    rw [willDestroyElement_commands, hcmd]
    apply erase_handlers _ _ (handlers_nodup c)
    intro h hh hmem
    exact hfree h hmem (handlers_target c h hh)
  · intro c3
    exact (willInsertElement_of_zero c3 _ hd).1
  · intro es r hrun n
    obtain ⟨r2, hr2⟩ := runLifecycle_take es [] s r n hrun
    refine ⟨r2, hr2, ?_⟩
    rcases runLifecycle_counter (es.take n) [] s r2 (Or.inl ⟨rfl, h0⟩) hr2 with
      ⟨_, hz⟩ | ⟨_, _, ho⟩
    · exact Or.inl hz
    · exact Or.inr ho

/-- C8, at a fresh state and the component 1. -/
theorem session_singleton_witness :
    (willInsertElement 1 (initialState none)).state.instances = 1 ∧
    (willInsertElement 1 (initialState none)).state.commands =
      (initialState none).commands ++ handlers 1 ∧
    (handlers 1).length = 7 :=
  (session_singleton (initialState none) 1 rfl).2.1

/-! ## The order of mutations -/

theorem foldl_applyMutation (ms : List Mutation) :
    ∀ (s : Mirror) (t : Nat), s.treeMirror = some t →
      (ms.foldl applyMutation s).applied = s.applied ++ ms.map (Prod.mk t) ∧
      (ms.foldl applyMutation s).settled = s.settled ∧
      (ms.foldl applyMutation s).callbacks = s.callbacks ∧
      (ms.foldl applyMutation s).issued = s.issued ∧
      (ms.foldl applyMutation s).iframePromise = s.iframePromise ∧
      (ms.foldl applyMutation s).treeMirror = some t := by
  induction ms with
  | nil =>
    intro s t ht
    simp [ht]
  | cons m ms ih =>
    intro s t ht
    have hstep : applyMutation s m =
        { s with applied := s.applied ++ [(t, m)], contentChanged := s.contentChanged + 1 } := by
      simp [applyMutation, ht]
    rw [List.foldl_cons, hstep]
    obtain ⟨h1, h2, h3, h4, h5, h6⟩ :=
      ih { s with applied := s.applied ++ [(t, m)], contentChanged := s.contentChanged + 1 } t ht
    refine ⟨?_, h2, h3, h4, h5, h6⟩
    rw [h1]
    simp

theorem filter_sorted_split (k : Nat) (P : Nat → Bool) (hP : ∀ j, P j = true → j < k)
    (arr : List (Nat × Mutation)) (hs : arr.Pairwise fun a b => a.1 ≤ b.1) :
    (arr.filter fun a => P a.1 || decide (a.1 = k)) =
      (arr.filter fun a => P a.1) ++ arr.filter fun a => decide (a.1 = k) := by
  induction arr with
  | nil => rfl
  | cons a rest ih =>
    rw [List.pairwise_cons] at hs
    obtain ⟨hle, hrest⟩ := hs
    have ih2 := ih hrest
    by_cases hk : a.1 = k
    · have hPa : P a.1 = false := by
        cases hp : P a.1
        · rfl
        · exact absurd (hP _ hp) (by omega)
      have hnone : (rest.filter fun b => P b.1) = [] := by
        rw [List.filter_eq_nil_iff]
        intro b hb hpb
        have h1 := hle b hb
        have h2 := hP _ hpb
        omega
      have hPk : P k = false := hk ▸ hPa
      simp only [List.filter_cons, hPa, hPk, hk, decide_True, Bool.or_true, if_true,
        Bool.false_eq_true, if_false, ih2, hnone, List.nil_append]
    · by_cases hp : P a.1 = true
      · simp only [List.filter_cons, hp, hk, decide_False, Bool.or_false, if_true,
          Bool.false_eq_true, if_false, ih2, List.cons_append]
      · have hp2 : P a.1 = false := by simpa using hp
        simp only [List.filter_cons, hp2, hk, decide_False, Bool.or_false, Bool.false_eq_true,
          if_false, ih2]

theorem map_frame_filter (k : Nat) (arr : List (Nat × Mutation)) :
    ((arr.filter fun a => decide (a.1 = k)).map Prod.snd).map (Prod.mk k) =
      arr.filter fun a => decide (a.1 = k) := by
  induction arr with
  | nil => rfl
  | cons a rest ih =>
    by_cases hk : a.1 = k
    · have ha : (k, a.2) = a := by rw [← hk]
      simp only [List.filter_cons, hk, decide_True, if_true, List.map_cons, ih, ha]
    · simp only [List.filter_cons, hk, decide_False, Bool.false_eq_true, if_false, ih]

theorem frameReady_of_bound (k : Nat) (s : Mirror) (hk : k < s.issued)
    (hs : s.settled k = false) :
    (frameReady k s).applied = s.applied ++ (s.callbacks k).map (Prod.mk k) ∧
    (frameReady k s).settled = (fun j => if j = k then true else s.settled j) ∧
    (frameReady k s).callbacks = (fun j => if j = k then [] else s.callbacks j) ∧
    (frameReady k s).issued = s.issued ∧
    (frameReady k s).iframePromise = s.iframePromise ∧
    (frameReady k s).treeMirror = some k := by
  unfold frameReady
  rw [if_pos ⟨hk, hs⟩]
  exact foldl_applyMutation (s.callbacks k) _ k rfl

theorem frameReady_of_not (k : Nat) (s : Mirror) (h : ¬ (k < s.issued ∧ s.settled k = false)) :
    frameReady k s = s := by
  unfold frameReady
  rw [if_neg h]

theorem mirrorInv_ready (k : Nat) (s : Mirror) (arr : List (Nat × Mutation))
    (inv : MirrorInv s arr) (hle : ∀ j, s.settled j = true → j ≤ k) :
    MirrorInv (frameReady k s) arr ∧
    (∀ j, (frameReady k s).settled j = true → j ≤ k) ∧
    (frameReady k s).issued = s.issued := by
  by_cases h : k < s.issued ∧ s.settled k = false
  · obtain ⟨hk, hs⟩ := h
    have hlo : ∀ j, s.settled j = true → j < k := by
      intro j hj
      have h1 := hle j hj
      have h2 : j ≠ k := by
        intro hjk
        rw [hjk, hs] at hj
        exact absurd hj (by decide)
      omega
    obtain ⟨ha, hse, hcb, hi, hp, ht⟩ := frameReady_of_bound k s hk hs
    refine ⟨⟨?_, ?_, inv.sorted, ?_, ?_, ?_, ?_, ?_⟩, ?_, hi⟩
    · rw [ha, hse, inv.callbacks_eq k hs, map_frame_filter, inv.applied_eq,
        ← filter_sorted_split k s.settled hlo arr inv.sorted]
      apply List.filter_congr
      intro a _
      by_cases hak : a.1 = k
      · simp [hak]
      · simp [hak]
    · intro j hj
      rw [hse] at hj
      rw [hcb]
      by_cases hjk : j = k
      · simp [hjk] at hj
      · simp only [hjk, if_false] at hj ⊢
        exact inv.callbacks_eq j hj
    · intro a ha2
      rw [hi]
      exact inv.issued_frames a ha2
    · rw [hi]
      exact inv.issued_pos
    · rw [hp, hi]
      exact inv.current
    · intro j hj
      rw [hse] at hj
      rw [hi]
      by_cases hjk : j = k
      · rw [hjk]; exact hk
      · simp only [hjk, if_false] at hj
        exact inv.settled_issued j hj
    · intro j hj
      rw [hse] at hj
      refine ⟨k, ht, ?_, ?_⟩
      · by_cases hjk : j = k
        · omega
        · simp only [hjk, if_false] at hj
          exact Nat.le_of_lt (hlo j hj)
      · rw [hse]
        simp
    · intro j hj
      rw [hse] at hj
      by_cases hjk : j = k
      · omega
      · simp only [hjk, if_false] at hj
        exact hle j hj
  · rw [frameReady_of_not k s h]
    exact ⟨inv, hle, rfl⟩

theorem msgMutation_first (m : Mutation) (s : Mirror) (hm : m.action = "initialize")
    (hs : s.settled s.issued = false) :
    msgMutation m s =
      { s with
        issued := s.issued + 1
        iframePromise := some s.issued
        callbacks := fun k => if k = s.issued then s.callbacks s.issued ++ [m]
          else s.callbacks k } := by
  unfold msgMutation
  simp [hm, clearIframe, hs]

theorem msgMutation_pending (m : Mutation) (s : Mirror) (p : Nat)
    (hm : m.action ≠ "initialize") (hp : s.iframePromise = some p)
    (hs : s.settled p = false) :
    msgMutation m s =
      { s with callbacks := fun k => if k = p then s.callbacks p ++ [m] else s.callbacks k } := by
  unfold msgMutation
  simp [hm, hp, hs]

theorem msgMutation_settled (m : Mutation) (s : Mirror) (p t : Nat)
    (hm : m.action ≠ "initialize") (hp : s.iframePromise = some p)
    (hs : s.settled p = true) (ht : s.treeMirror = some t) :
    msgMutation m s =
      { s with applied := s.applied ++ [(t, m)], contentChanged := s.contentChanged + 1 } := by
  unfold msgMutation
  simp [hm, hp, hs, applyMutation, ht]

theorem mirrorInv_append_pending (s : Mirror) (arr : List (Nat × Mutation)) (m : Mutation)
    (n p : Nat) (inv : MirrorInv s arr) (hn : s.issued ≤ n) (hpn : p < n)
    (hps : s.settled p = false) (hpa : ∀ a ∈ arr, a.1 ≤ p) (hcur : n - 1 = p) :
    MirrorInv
      { s with
        issued := n
        iframePromise := some p
        callbacks := fun k => if k = p then s.callbacks p ++ [m] else s.callbacks k }
      (arr ++ [(p, m)]) := by
  refine ⟨?_, ?_, ?_, ?_, ?_, ?_, ?_, ?_⟩
  · show s.applied = List.filter (fun a => s.settled a.1) (arr ++ [(p, m)])
    rw [List.filter_append, inv.applied_eq]
    simp [hps]
  · intro k hk
    show (if k = p then s.callbacks p ++ [m] else s.callbacks k) = _
    rw [List.filter_append, List.map_append]
    by_cases hkp : k = p
    · rw [if_pos hkp, inv.callbacks_eq p hps, hkp]
      simp
    · rw [if_neg hkp, inv.callbacks_eq k hk]
      have : ¬ p = k := fun h => hkp h.symm
      simp [this]
  · rw [List.pairwise_append]
    refine ⟨inv.sorted, List.pairwise_singleton _ _, ?_⟩
    intro a ha b hb
    rw [List.mem_singleton] at hb
    rw [hb]
    exact hpa a ha
  · intro a ha
    show a.1 < n
    rw [List.mem_append, List.mem_singleton] at ha
    rcases ha with ha | ha
    · exact Nat.lt_of_lt_of_le (inv.issued_frames a ha) hn
    · rw [ha]; exact hpn
  · show 1 ≤ n
    omega
  · show some p = some (n - 1)
    rw [hcur]
  · intro k hk
    show k < n
    exact Nat.lt_of_lt_of_le (inv.settled_issued k hk) hn
  · exact inv.mirror_top

theorem mirrorInv_mutation (m : Mutation) (s : Mirror) (arr : List (Nat × Mutation))
    (inv : MirrorInv s arr) :
    MirrorInv (msgMutation m s)
      (arr ++ [(if m.action = "initialize" then s.issued else s.issued - 1, m)]) ∧
    (msgMutation m s).issued =
      (if m.action = "initialize" then s.issued + 1 else s.issued) ∧
    (msgMutation m s).settled = s.settled := by
  have hpos := inv.issued_pos
  by_cases hm : m.action = "initialize"
  · have hs : s.settled s.issued = false := by
      cases h : s.settled s.issued
      · rfl
      · exact absurd (inv.settled_issued _ h) (Nat.lt_irrefl _)
    rw [msgMutation_first m s hm hs, if_pos hm, if_pos hm]
    refine ⟨?_, rfl, rfl⟩
    apply mirrorInv_append_pending s arr m (s.issued + 1) s.issued inv (Nat.le_succ _)
      (Nat.lt_succ_self _) hs
    · intro a ha
      exact Nat.le_of_lt (inv.issued_frames a ha)
    · rfl
  · rw [if_neg hm, if_neg hm]
    have hcur := inv.current
    have hfr : ∀ a ∈ arr, a.1 ≤ s.issued - 1 := by
      intro a ha
      have := inv.issued_frames a ha
      omega
    cases hs : s.settled (s.issued - 1)
    · rw [msgMutation_pending m s _ hm hcur hs]
      refine ⟨?_, rfl, rfl⟩
      have h := mirrorInv_append_pending s arr m s.issued (s.issued - 1) inv (Nat.le_refl _)
        (by omega) hs hfr rfl
      rw [← hcur] at h
      exact h
    · obtain ⟨t, ht, hle, hts⟩ := inv.mirror_top _ hs
      have htlt := inv.settled_issued t hts
      have hteq : t = s.issued - 1 := by omega
      rw [msgMutation_settled m s _ t hm hcur hs ht]
      refine ⟨⟨?_, ?_, ?_, ?_, hpos, hcur, inv.settled_issued, inv.mirror_top⟩, rfl, rfl⟩
      · show s.applied ++ [(t, m)] = _
        rw [List.filter_append, inv.applied_eq, hteq]
        simp [hs]
      · intro k hk
        show s.callbacks k = _
        rw [List.filter_append, List.map_append, inv.callbacks_eq k hk]
        have : ¬ s.issued - 1 = k := by
          intro h
          rw [h] at hs
          rw [hs] at hk
          exact absurd hk (by decide)
        simp [this]
      · rw [List.pairwise_append]
        refine ⟨inv.sorted, List.pairwise_singleton _ _, ?_⟩
        intro a ha b hb
        rw [List.mem_singleton] at hb
        rw [hb]
        exact hfr a ha
      · intro a ha
        rw [List.mem_append, List.mem_singleton] at ha
        rcases ha with ha | ha
        · exact inv.issued_frames a ha
        · rw [ha]
          show s.issued - 1 < s.issued
          omega

theorem laterSettled_eq_false (s : Mirror) (k : Nat) :
    laterSettled s k = false ↔ ∀ j, k < j → j < s.issued → s.settled j = false := by
  unfold laterSettled
  rw [List.any_eq_false]
  constructor
  · intro h j hkj hj
    have := h j (List.mem_range.mpr hj)
    simpa [hkj] using this
  · intro h j hj
    rw [List.mem_range] at hj
    by_cases hkj : k < j
    · simp [hkj, h j hkj hj]
    · simp [hkj]

theorem mirrorRun_inv (tr : List MirrorEvent) :
    ∀ (s : Mirror) (arr : List (Nat × Mutation)), MirrorInv s arr →
      inFrameOrder s tr = true →
      MirrorInv (mirrorRun s tr) (arr ++ arrivals s.issued tr) := by
  induction tr with
  | nil =>
    intro s arr inv _
    simpa [mirrorRun, arrivals] using inv
  | cons e es ih =>
    intro s arr inv hord
    cases e with
    | mutation m =>
      obtain ⟨inv2, hi, _⟩ := mirrorInv_mutation m s arr inv
      have hord2 : inFrameOrder (msgMutation m s) es = true := by
        simpa [inFrameOrder] using hord
      have h := ih (msgMutation m s) _ inv2 hord2
      have hrun : mirrorRun s (MirrorEvent.mutation m :: es) = mirrorRun (msgMutation m s) es :=
        rfl
      rw [hrun]
      by_cases hm : m.action = "initialize"
      · rw [hi, if_pos hm, if_pos hm] at h
        simpa [arrivals, hm] using h
      · rw [hi, if_neg hm, if_neg hm] at h
        simpa [arrivals, hm] using h
    | ready k =>
      have hrun : mirrorRun s (MirrorEvent.ready k :: es) = mirrorRun (frameReady k s) es := rfl
      simp only [inFrameOrder, Bool.and_eq_true, Bool.not_eq_true'] at hord
      obtain ⟨hk, hrest⟩ := hord
      rw [hrun]
      by_cases hb : k < s.issued ∧ s.settled k = false
      · have hl : laterSettled s k = false := by
          simpa [hb.1, hb.2] using hk
        rw [laterSettled_eq_false] at hl
        have hle : ∀ j, s.settled j = true → j ≤ k := by
          intro j hj
          by_contra hjk
          have h1 := hl j (by omega) (inv.settled_issued j hj)
          rw [h1] at hj
          exact absurd hj (by decide)
        obtain ⟨inv2, _, hi⟩ := mirrorInv_ready k s arr inv hle
        have h := ih (frameReady k s) arr inv2 hrest
        rw [hi] at h
        simpa [arrivals] using h
      · rw [frameReady_of_not k s hb] at hrest ⊢
        have h := ih s arr inv hrest
        simpa [arrivals] using h

theorem mirrorInv_first (args : List String) :
    MirrorInv (msgMutation ⟨"initialize", args⟩ Mirror.empty) [(0, ⟨"initialize", args⟩)] := by
  rw [msgMutation_first _ _ rfl rfl]
  refine ⟨rfl, ?_, List.pairwise_singleton _ _, ?_, Nat.le_refl 1, rfl, ?_, ?_⟩
  · intro k _
    by_cases hk : k = 0
    · subst hk
      rfl
    · have h0 : ¬ 0 = k := fun h => hk h.symm
      simp [Mirror.empty, hk, h0]
  · intro a ha
    rw [List.mem_singleton] at ha
    rw [ha]
    exact Nat.lt_succ_self 0
  · intro k hk
    exact absurd hk (by simp [Mirror.empty])
  · intro k hk
    exact absurd hk (by simp [Mirror.empty])

theorem inFrameOrder_take (tr : List MirrorEvent) :
    ∀ (s : Mirror) (n : Nat), inFrameOrder s tr = true → inFrameOrder s (tr.take n) = true := by
  induction tr with
  | nil =>
    intro s n h
    simpa using h
  | cons e es ih =>
    intro s n h
    cases n with
    | zero => simp [inFrameOrder]
    | succ n =>
      rw [List.take_succ_cons]
      cases e with
      | mutation m =>
        simp only [inFrameOrder] at h ⊢
        exact ih _ n h
      | ready k =>
        simp only [inFrameOrder, Bool.and_eq_true] at h ⊢
        exact ⟨h.1, ih _ n h.2⟩

theorem msgMutation_fields (m : Mutation) (s : Mirror) :
    (msgMutation m s).settled = s.settled ∧
    (msgMutation m s).issued = (if m.action = "initialize" then s.issued + 1 else s.issued) ∧
    (msgMutation m s).iframePromise =
      (if m.action = "initialize" then some s.issued else s.iframePromise) := by
  unfold msgMutation
  by_cases hm : m.action = "initialize"
  · simp only [hm, if_true, clearIframe]
    split
    · unfold applyMutation
      split <;> simp
    · simp
  · simp only [hm, if_false]
    cases hp : s.iframePromise with
    | none => simp
    | some p =>
      simp only []
      split
      · unfold applyMutation
        split <;> simp [hp]
      · simp [hp]

theorem inFrameOrder_of_noOverlap (tr : List MirrorEvent) :
    ∀ (s : Mirror), (∀ j, s.settled j = true → j < s.issued) →
      (∀ j, j + 1 < s.issued → s.settled j = true) →
      (s.issued = 0 ∨ s.iframePromise = some (s.issued - 1)) →
      noOverlap s tr = true → inFrameOrder s tr = true := by
  induction tr with
  | nil =>
    intro s _ _ _ _
    rfl
  | cons e es ih =>
    intro s h1 h2 h3 hno
    cases e with
    | mutation m =>
      simp only [noOverlap, Bool.and_eq_true] at hno
      obtain ⟨hcur, hrest⟩ := hno
      simp only [inFrameOrder]
      obtain ⟨hse, hi, hp⟩ := msgMutation_fields m s
      apply ih _ _ _ _ hrest
      · intro j hj
        rw [hse] at hj
        rw [hi]
        have := h1 j hj
        split <;> omega
      · intro j hj
        rw [hse]
        rw [hi] at hj
        by_cases hm : m.action = "initialize"
        · rw [if_pos hm] at hj hcur
          by_cases hlt : j + 1 < s.issued
          · exact h2 j hlt
          · have hj2 : j = s.issued - 1 := by omega
            rcases h3 with h0 | hc
            · omega
            · rw [hc] at hcur
              rw [hj2]
              exact hcur
        · rw [if_neg hm] at hj
          exact h2 j hj
      · rw [hi, hp]
        by_cases hm : m.action = "initialize"
        · right
          rw [if_pos hm, if_pos hm]
          rfl
        · rw [if_neg hm, if_neg hm]
          exact h3
    | ready k =>
      simp only [noOverlap] at hno
      simp only [inFrameOrder, Bool.and_eq_true, Bool.not_eq_true']
      by_cases hb : k < s.issued ∧ s.settled k = false
      · have hl : laterSettled s k = false := by
          rw [laterSettled_eq_false]
          intro j hkj hj
          have hk1 : ¬ k + 1 < s.issued := by
            intro hlt
            have := h2 k hlt
            rw [hb.2] at this
            exact absurd this (by decide)
          omega
        refine ⟨by simp [hl], ?_⟩
        obtain ⟨_, hse, _, hi, hp, _⟩ := frameReady_of_bound k s hb.1 hb.2
        apply ih _ _ _ _ hno
        · intro j hj
          rw [hse] at hj
          rw [hi]
          by_cases hjk : j = k
          · rw [hjk]; exact hb.1
          · simp only [hjk, if_false] at hj
            exact h1 j hj
        · intro j hj
          rw [hi] at hj
          rw [hse]
          by_cases hjk : j = k
          · simp [hjk]
          · simp only [hjk, if_false]
            exact h2 j hj
        · rw [hi, hp]
          exact h3
      · rw [frameReady_of_not k s hb] at hno ⊢
        refine ⟨?_, ih s h1 h2 h3 hno⟩
        rw [not_and_or] at hb
        rcases hb with hb | hb
        · simp [hb]
        · have : s.settled k = true := by simpa using hb
          simp [this]

/-- C10. For every trace of mutation and ready messages that begins with an
`initialize` message, whatever the moment of each ready message: when no
`initialize` arrives while an earlier one is pending, or when one does and the
handled ready messages come in the order of their frames, then at every point
of the trace the log of applied operations is the list of the messages
arrived so far, in arrival order, restricted to those whose `initialize` has
signalled ready, each applied to the `TreeMirror` built at that signal. -/
theorem mutations_in_arrival_order (args : List String) (tr : List MirrorEvent)
    (h : noOverlap Mirror.empty (MirrorEvent.mutation ⟨"initialize", args⟩ :: tr) = true ∨
      inFrameOrder Mirror.empty (MirrorEvent.mutation ⟨"initialize", args⟩ :: tr) = true)
    (n : Nat) :
    (mirrorRun Mirror.empty
        (MirrorEvent.mutation ⟨"initialize", args⟩ :: tr.take n)).applied =
      (arrivals 0 (MirrorEvent.mutation ⟨"initialize", args⟩ :: tr.take n)).filter
        (fun a =>
          (mirrorRun Mirror.empty
            (MirrorEvent.mutation ⟨"initialize", args⟩ :: tr.take n)).settled a.1) ∧
    List.Sublist
      (mirrorRun Mirror.empty
        (MirrorEvent.mutation ⟨"initialize", args⟩ :: tr.take n)).applied
      (arrivals 0 (MirrorEvent.mutation ⟨"initialize", args⟩ :: tr.take n)) := by
  have hord : inFrameOrder Mirror.empty (MirrorEvent.mutation ⟨"initialize", args⟩ :: tr)
      = true := by
    rcases h with h | h
    · exact inFrameOrder_of_noOverlap _ Mirror.empty
        (fun j hj => absurd hj (by simp [Mirror.empty]))
        (fun j hj => absurd hj (by simp [Mirror.empty])) (Or.inl rfl) h
    · exact h
  have hord1 : inFrameOrder (msgMutation ⟨"initialize", args⟩ Mirror.empty) tr = true := by
    simpa [inFrameOrder] using hord
  have hord2 := inFrameOrder_take tr _ n hord1
  have hrun : mirrorRun Mirror.empty
      (MirrorEvent.mutation ⟨"initialize", args⟩ :: tr.take n) =
      mirrorRun (msgMutation ⟨"initialize", args⟩ Mirror.empty) (tr.take n) := rfl
  have harr : arrivals 0 (MirrorEvent.mutation ⟨"initialize", args⟩ :: tr.take n) =
      [(0, ⟨"initialize", args⟩)] ++
        arrivals (msgMutation ⟨"initialize", args⟩ Mirror.empty).issued (tr.take n) := by
    rw [msgMutation_first _ _ rfl rfl]
    simp [arrivals, Mirror.empty]
  have inv := mirrorRun_inv (tr.take n) _ _ (mirrorInv_first args) hord2
  rw [hrun, harr]
  have h1 := inv.applied_eq
  refine ⟨h1, ?_⟩
  rw [h1]
  exact List.filter_sublist _

/-- C10, at a trace where the second `initialize` arrives while the first is
pending, the first frame signals late, and a ready message is repeated. -/
theorem mutations_in_arrival_order_witness :
    (mirrorRun Mirror.empty
      (MirrorEvent.mutation ⟨"initialize", ["r1"]⟩ ::
        [MirrorEvent.mutation ⟨"applyChanged", ["a"]⟩,
         MirrorEvent.mutation ⟨"initialize", ["r2"]⟩,
         MirrorEvent.mutation ⟨"applyChanged", ["b"]⟩,
         MirrorEvent.ready 0, MirrorEvent.ready 1, MirrorEvent.ready 0,
         MirrorEvent.mutation ⟨"applyChanged", ["c"]⟩].take 7)).applied =
      (arrivals 0
        (MirrorEvent.mutation ⟨"initialize", ["r1"]⟩ ::
          [MirrorEvent.mutation ⟨"applyChanged", ["a"]⟩,
           MirrorEvent.mutation ⟨"initialize", ["r2"]⟩,
           MirrorEvent.mutation ⟨"applyChanged", ["b"]⟩,
           MirrorEvent.ready 0, MirrorEvent.ready 1, MirrorEvent.ready 0,
           MirrorEvent.mutation ⟨"applyChanged", ["c"]⟩].take 7)).filter
        (fun a =>
          (mirrorRun Mirror.empty
            (MirrorEvent.mutation ⟨"initialize", ["r1"]⟩ ::
              [MirrorEvent.mutation ⟨"applyChanged", ["a"]⟩,
               MirrorEvent.mutation ⟨"initialize", ["r2"]⟩,
               MirrorEvent.mutation ⟨"applyChanged", ["b"]⟩,
               MirrorEvent.ready 0, MirrorEvent.ready 1, MirrorEvent.ready 0,
               MirrorEvent.mutation ⟨"applyChanged", ["c"]⟩].take 7)).settled a.1) :=
  (mutations_in_arrival_order ["r1"]
    [MirrorEvent.mutation ⟨"applyChanged", ["a"]⟩,
     MirrorEvent.mutation ⟨"initialize", ["r2"]⟩,
     MirrorEvent.mutation ⟨"applyChanged", ["b"]⟩,
     MirrorEvent.ready 0, MirrorEvent.ready 1, MirrorEvent.ready 0,
     MirrorEvent.mutation ⟨"applyChanged", ["c"]⟩]
    (Or.inr (by decide)) 7).1

/-- With the second `initialize` arriving while the first is pending and the
first frame signalling late, every operation is applied, in arrival order. -/
theorem mutations_overlap_applied :
    (mirrorRun Mirror.empty
      [MirrorEvent.mutation ⟨"initialize", ["r1"]⟩, MirrorEvent.mutation ⟨"applyChanged", ["a"]⟩,
       MirrorEvent.mutation ⟨"initialize", ["r2"]⟩, MirrorEvent.mutation ⟨"applyChanged", ["b"]⟩,
       MirrorEvent.ready 0, MirrorEvent.ready 1, MirrorEvent.ready 0,
       MirrorEvent.mutation ⟨"applyChanged", ["c"]⟩]).applied =
      [(0, ⟨"initialize", ["r1"]⟩), (0, ⟨"applyChanged", ["a"]⟩),
       (1, ⟨"initialize", ["r2"]⟩), (1, ⟨"applyChanged", ["b"]⟩),
       (1, ⟨"applyChanged", ["c"]⟩)] := by
  decide

/-- The order of the handled ready messages matters to the component. Were the
ready message of the second frame handled before that of the first, which the
one iframe element does not deliver, the operations of the first frame would be
replayed after those of the second. Such a trace is not in frame order. -/
theorem ready_out_of_frame_order :
    inFrameOrder Mirror.empty
      [MirrorEvent.mutation ⟨"initialize", ["r1"]⟩, MirrorEvent.mutation ⟨"applyChanged", ["a"]⟩,
       MirrorEvent.mutation ⟨"initialize", ["r2"]⟩, MirrorEvent.mutation ⟨"applyChanged", ["b"]⟩,
       MirrorEvent.ready 1, MirrorEvent.ready 0] = false ∧
    (mirrorRun Mirror.empty
      [MirrorEvent.mutation ⟨"initialize", ["r1"]⟩, MirrorEvent.mutation ⟨"applyChanged", ["a"]⟩,
       MirrorEvent.mutation ⟨"initialize", ["r2"]⟩, MirrorEvent.mutation ⟨"applyChanged", ["b"]⟩,
       MirrorEvent.ready 1, MirrorEvent.ready 0]).applied.map Prod.snd =
      [⟨"initialize", ["r2"]⟩, ⟨"applyChanged", ["b"]⟩,
       ⟨"initialize", ["r1"]⟩, ⟨"applyChanged", ["a"]⟩] := by
  refine ⟨by decide, by decide⟩

end BrowserIFrame
